import Mathlib

/-!
Verification of the sys-snapshots-and-metrics core pipeline.

Shallow embedding of the three core modules:
- `Analyzer` embeds `src/analyzer.py` (statistics, network totals, anomalies).
- `Runner` embeds the tick loop of `src/runner.py` (delta computation,
  per-tick resilience); the metrics reader is modelled as an external
  fallible input, as the spec treats it as an external collaborator.
- `Storage` embeds `src/storage.py` (atomic save, windowed ordered read).

Python floats are modelled as rationals, Python ints as integers.
-/

namespace Analyzer

/-- A dynamically typed field value as seen by `float(x)`. Values are
classified by their conversion behaviour: `num q` covers any value that
`float` converts to the number `q` (ints, floats, numeric strings);
`null` is Python `None` or a missing key (for the flattened nested
dicts, `null` also covers a missing enclosing dict, matching
`(s.get("cpu") or \x7b\x7d).get("percent")`); `bad` is any value `float`
rejects. -/
inductive FVal where
  | null : FVal
  | num : ℚ → FVal
  | bad : FVal
deriving DecidableEq

/-- A dynamically typed field value as seen by `int(x)`: `num n` covers any
value that `int` converts to `n` (ints, and floats via truncation),
`null` is `None`/missing, `bad` is any value `int` rejects. -/
inductive DVal where
  | null : DVal
  | num : ℤ → DVal
  | bad : DVal
deriving DecidableEq

/-- One snapshot dict as consumed by `analyze` (`src/analyzer.py`), with the
nested accesses flattened: `cpu_percent` stands for
`(s.get("cpu") or \x7b\x7d).get("percent")` and so on. The `ts` and
`disk_path` fields are only carried through by `analyze`, never coerced,
so they keep a concrete type. -/
structure ASnap where
  ts : Option String
  cpu_percent : FVal
  mem_percent : FVal
  disk_percent : FVal
  disk_path : Option String
  sent_delta : DVal
  recv_delta : DVal
deriving DecidableEq

/-- The `anomalies` section of the configuration dict, already typed
(config validation is out of scope for the core, per the spec): a missing
key means the default is used (`90.0` for the percent thresholds, disabled
for the net threshold). -/
structure ACfg where
  cpu_percent_high : Option ℚ
  mem_percent_high : Option ℚ
  net_delta_high : Option ℤ
deriving DecidableEq

/-- Embeds the helper `num(x, default)` of `analyze`: `float(x)`, with the
default returned when the conversion raises. -/
def num (x : FVal) (default : ℚ) : ℚ :=
  match x with
  | .null => default
  | .num q => q
  | .bad => default

/-- Embeds the helper `int_or_none(x)` of `analyze`: `None` stays `None`,
`int(x)` otherwise, `None` when the conversion raises. -/
def int_or_none (x : DVal) : Option ℤ :=
  match x with
  | .null => none
  | .num n => some n
  | .bad => none

/-- An anomaly reason string: the constructor is the reason kind, the
argument is the threshold the code interpolates into the f-string
(for example `f"cpu_percent_high (>= \x7bcpu_hi\x7d)"`). -/
inductive Reason where
  | cpu_percent_high : ℚ → Reason
  | mem_percent_high : ℚ → Reason
  | net_sent_delta_high : ℤ → Reason
  | net_recv_delta_high : ℤ → Reason
deriving DecidableEq

/-- One entry of the `anomalies` list built by `analyze`: timestamp, the
accumulated reasons, and the metric values at that instant. The two delta
fields hold the clamped deltas (`None` when the input delta was null). -/
structure Anomaly where
  ts : Option String
  reasons : List Reason
  cpu_percent : ℚ
  mem_percent : ℚ
  disk_percent : ℚ
  net_sent_delta : Option ℤ
  net_recv_delta : Option ℤ
deriving DecidableEq

/-- The clamping `if ds < 0: ds = 0` applied inside the non-`None` branch;
a `None` delta is left untouched. -/
def clampDelta (d : Option ℤ) : Option ℤ :=
  d.map (fun x => if x < 0 then 0 else x)

/-- The reason list accumulated for one snapshot by the loop body of
`analyze`, in code order: CPU check, memory check, sent check (against the
clamped delta, only when a net threshold is configured and the delta is not
null), receive check. -/
def sampleReasons (cpu_hi mem_hi : ℚ) (net_hi : Option ℤ) (s : ASnap) : List Reason :=
  (if cpu_hi ≤ num s.cpu_percent 0 then [Reason.cpu_percent_high cpu_hi] else [])
    ++ (if mem_hi ≤ num s.mem_percent 0 then [Reason.mem_percent_high mem_hi] else [])
    ++ (match int_or_none s.sent_delta, net_hi with
        | some ds, some th =>
          if th ≤ (if ds < 0 then 0 else ds) then [Reason.net_sent_delta_high th] else []
        | _, _ => [])
    ++ (match int_or_none s.recv_delta, net_hi with
        | some dr, some th =>
          if th ≤ (if dr < 0 then 0 else dr) then [Reason.net_recv_delta_high th] else []
        | _, _ => [])

/-- The anomaly entry the loop of `analyze` appends for one snapshot:
`none` when no reason triggered, otherwise the record built at the end of
the loop body. -/
def anomalyOf (cpu_hi mem_hi : ℚ) (net_hi : Option ℤ) (s : ASnap) : Option Anomaly :=
  let reasons := sampleReasons cpu_hi mem_hi net_hi s
  if reasons = [] then none
  else some
    { ts := s.ts
      reasons := reasons
      cpu_percent := num s.cpu_percent 0
      mem_percent := num s.mem_percent 0
      disk_percent := num s.disk_percent 0
      net_sent_delta := clampDelta (int_or_none s.sent_delta)
      net_recv_delta := clampDelta (int_or_none s.recv_delta) }

/-- Contribution of one snapshot to `sent_total`: `0` when the delta is
null, the clamped delta otherwise (loop lines `if ds < 0: ds = 0` and
`sent_total += ds`). -/
def sentContrib (s : ASnap) : ℤ :=
  match int_or_none s.sent_delta with
  | none => 0
  | some ds => if ds < 0 then 0 else ds

/-- Contribution of one snapshot to `recv_total`. -/
def recvContrib (s : ASnap) : ℤ :=
  match int_or_none s.recv_delta with
  | none => 0
  | some dr => if dr < 0 then 0 else dr

/-- Contribution of one snapshot to `deltas_ignored`: one per null delta
direction (the code increments once for a null `sent_delta` and once more
for a null `recv_delta`). -/
def ignoredContrib (s : ASnap) : ℕ :=
  (if int_or_none s.sent_delta = none then 1 else 0)
    + (if int_or_none s.recv_delta = none then 1 else 0)

/-- The mutable loop state of `analyze`: the three value series, the two
network totals, the ignored-delta counter and the anomaly list. -/
structure LoopSt where
  cpu_vals : List ℚ
  mem_vals : List ℚ
  disk_vals : List ℚ
  sent_total : ℤ
  recv_total : ℤ
  deltas_ignored : ℕ
  anomalies : List Anomaly
deriving DecidableEq

/-- One iteration of the `for s in snapshots` loop of `analyze`. -/
def step (cpu_hi mem_hi : ℚ) (net_hi : Option ℤ) (st : LoopSt) (s : ASnap) : LoopSt :=
  { cpu_vals := st.cpu_vals ++ [num s.cpu_percent 0]
    mem_vals := st.mem_vals ++ [num s.mem_percent 0]
    disk_vals := st.disk_vals ++ [num s.disk_percent 0]
    sent_total := st.sent_total + sentContrib s
    recv_total := st.recv_total + recvContrib s
    deltas_ignored := st.deltas_ignored + ignoredContrib s
    anomalies := st.anomalies ++ (anomalyOf cpu_hi mem_hi net_hi s).toList }

/-- The initial loop state (empty lists, zero totals). -/
def initLoopSt : LoopSt :=
  { cpu_vals := []
    mem_vals := []
    disk_vals := []
    sent_total := 0
    recv_total := 0
    deltas_ignored := 0
    anomalies := [] }

/-- The min/avg/max record produced by the helper `min_avg_max`. -/
structure Agg where
  min : Option ℚ
  avg : Option ℚ
  max : Option ℚ
deriving DecidableEq

/-- Embeds the helper `min_avg_max(vals)`: all `None` on an empty list,
otherwise Python `min`, `sum/len` and `max` of the list. -/
def min_avg_max (vals : List ℚ) : Agg :=
  match vals with
  | [] => { min := none, avg := none, max := none }
  | v :: vs =>
    { min := some (vs.foldl Min.min v)
      avg := some (((v :: vs).sum) / ((v :: vs).length : ℚ))
      max := some (vs.foldl Max.max v) }

/-- The `time_range` section of the analysis (the `end` key is rendered
`end_` because `end` is reserved in Lean). -/
structure TimeRange where
  start : Option String
  end_ : Option String
deriving DecidableEq

/-- The `metrics` section of the analysis. -/
structure MetricsAgg where
  cpu_percent : Agg
  mem_percent : Agg
  disk_percent : Agg
deriving DecidableEq

/-- The `disk` section of the analysis. -/
structure DiskInfo where
  path : Option String
  last_percent : Option ℚ
deriving DecidableEq

/-- The `net` section of the analysis. -/
structure NetTotals where
  sent_total : ℤ
  recv_total : ℤ
  deltas_ignored : ℕ
deriving DecidableEq

/-- The `series` section of the analysis. -/
structure SeriesOut where
  cpu_percent : List ℚ
  mem_percent : List ℚ
  disk_percent : List ℚ
deriving DecidableEq

/-- The full analysis dict returned by `analyze`. -/
structure Analysis where
  time_range : TimeRange
  count : ℕ
  metrics : MetricsAgg
  disk : DiskInfo
  net : NetTotals
  anomalies : List Anomaly
  last_snapshot : Option ASnap
  series : SeriesOut
deriving DecidableEq

/-- Embeds `analyze(snapshots, cfg)` from `src/analyzer.py`: threshold
extraction with defaults, the early return for an empty list, the
per-snapshot loop (as a fold of `step`), and the final assembly using the
first and last snapshots for the time range and disk section. -/
def analyze (snapshots : List ASnap) (cfg : ACfg) : Analysis :=
  let cpu_hi := cfg.cpu_percent_high.getD 90
  let mem_hi := cfg.mem_percent_high.getD 90
  let net_hi := cfg.net_delta_high
  match snapshots with
  | [] =>
    { time_range := { start := none, end_ := none }
      count := 0
      metrics :=
        { cpu_percent := { min := none, avg := none, max := none }
          mem_percent := { min := none, avg := none, max := none }
          disk_percent := { min := none, avg := none, max := none } }
      disk := { path := none, last_percent := none }
      net := { sent_total := 0, recv_total := 0, deltas_ignored := 0 }
      anomalies := []
      last_snapshot := none
      series := { cpu_percent := [], mem_percent := [], disk_percent := [] } }
  | s0 :: rest =>
    let last := (s0 :: rest).getLastD s0
    let st := (s0 :: rest).foldl (step cpu_hi mem_hi net_hi) initLoopSt
    { time_range := { start := s0.ts, end_ := last.ts }
      count := (s0 :: rest).length
      metrics :=
        { cpu_percent := min_avg_max st.cpu_vals
          mem_percent := min_avg_max st.mem_vals
          disk_percent := min_avg_max st.disk_vals }
      disk := { path := last.disk_path, last_percent := some (num last.disk_percent 0) }
      net :=
        { sent_total := st.sent_total
          recv_total := st.recv_total
          deltas_ignored := st.deltas_ignored }
      anomalies := st.anomalies
      last_snapshot := some last
      series :=
        { cpu_percent := st.cpu_vals
          mem_percent := st.mem_vals
          disk_percent := st.disk_vals } }

end Analyzer

namespace Runner

/-- The network section of one raw reading from the metrics reader
(`snap["net"]["sent"]` and `snap["net"]["recv"]`, cumulative byte
counters). The rest of the snapshot is passed through untouched by the
runner, so it is not modelled here. -/
structure RawNet where
  sent : ℤ
  recv : ℤ
deriving DecidableEq

/-- Outcome of the metrics-reader call at the top of a tick: the reader is
an external collaborator (spec section 1), so a tick either obtains a raw
reading or the call raises. -/
inductive CollectResult where
  | err : CollectResult
  | ok : RawNet → CollectResult
deriving DecidableEq

/-- The externally determined events of one tick: the metrics-reader
outcome and whether the persistence call raises. -/
structure TickInput where
  collect : CollectResult
  saveFail : Bool
deriving DecidableEq

/-- The per-run state of `run` in `src/runner.py`: the run-scoped
previous counters and the two counters of the run summary. -/
structure RunSt where
  prev_sent : Option ℤ
  prev_recv : Option ℤ
  snapshots_saved : ℕ
  ticks : ℕ
deriving DecidableEq

/-- What one tick did: `failed` when the exception handler caught a
metrics-read error (no deltas computed), otherwise the deltas that were
attached to the snapshot, with or without a successful save. -/
inductive TickResult where
  | failed : TickResult
  | processedSaveFailed : Option ℤ → Option ℤ → TickResult
  | saved : Option ℤ → Option ℤ → TickResult
deriving DecidableEq

/-- Embeds runner lines 77 to 94: both deltas are `None` when either
previous counter is `None` (first tick), otherwise raw differences with
negative values (counter reset) clamped to 0. -/
def computeDeltas (prev_sent prev_recv : Option ℤ) (sent recv : ℤ) :
    Option ℤ × Option ℤ :=
  match prev_sent, prev_recv with
  | some ps, some pr =>
    let ds := sent - ps
    let dr := recv - pr
    (some (if ds < 0 then 0 else ds), some (if dr < 0 then 0 else dr))
  | _, _ => (none, none)

/-- One iteration of the `while True` loop body of `run`: the tick counter
always increments; on a metrics-read error the exception handler logs and
continues; otherwise deltas are computed, the previous counters are
updated to the current raw counters, and the save either succeeds
(incrementing `snapshots_saved`) or raises into the same handler. -/
def tick (st : RunSt) (inp : TickInput) : RunSt × TickResult :=
  let st1 : RunSt := { st with ticks := st.ticks + 1 }
  match inp.collect with
  | .err => (st1, .failed)
  | .ok raw =>
    let d := computeDeltas st1.prev_sent st1.prev_recv raw.sent raw.recv
    let st2 : RunSt := { st1 with prev_sent := some raw.sent, prev_recv := some raw.recv }
    if inp.saveFail then (st2, .processedSaveFailed d.1 d.2)
    else ({ st2 with snapshots_saved := st2.snapshots_saved + 1 }, .saved d.1 d.2)

/-- The state at the start of a run: no previous counters (run-scoped,
regardless of any persisted history) and zeroed summary counters. -/
def initSt : RunSt :=
  { prev_sent := none, prev_recv := none, snapshots_saved := 0, ticks := 0 }

/-- The tick loop over a finite schedule of tick inputs (the schedule
length is what the interval/duration timing decides; timing itself is not
modelled). Returns the final state and the per-tick trace. -/
def loop (st : RunSt) : List TickInput → RunSt × List TickResult
  | [] => (st, [])
  | i :: rest =>
    let r := tick st i
    let res := loop r.1 rest
    (res.1, r.2 :: res.2)

/-- A full run: the loop started from the fresh run-scoped state. -/
def runTicks (inps : List TickInput) : RunSt × List TickResult :=
  loop initSt inps

/-- Whether a tick saves a snapshot: the metrics read succeeded and the
persistence call did not raise. -/
def TickInput.succeeds (t : TickInput) : Bool :=
  match t.collect with
  | .ok _ => !t.saveFail
  | .err => false

end Runner

namespace Storage

/-- One entry of `snapshot["top_processes"]` as handed to `save_snapshot`:
values produced by the collector are numbers or `None`, and the save path
applies `int(...)` / `float(...)` / `str(... or "unknown")` to them. -/
structure MProc where
  pid : Option ℤ
  name : Option String
  cpu_percent : Option ℚ
  mem_rss : Option ℤ
deriving DecidableEq

/-- The in-memory snapshot dict handed to `save_snapshot`, flattened the
way the INSERT parameter list reads it: `cpu_percent` stands for
`(snapshot.get("cpu") or \x7b\x7d).get("percent")` and so on; `none` is a
missing key or `None` value. -/
structure MSnap where
  ts : Option String
  hostname : Option String
  os_name : Option String
  os_release : Option String
  cpu_percent : Option ℚ
  mem_total : Option ℤ
  mem_used : Option ℤ
  mem_percent : Option ℚ
  disk_path : Option String
  disk_total : Option ℤ
  disk_used : Option ℤ
  disk_percent : Option ℚ
  net_sent : Option ℤ
  net_recv : Option ℤ
  net_sent_delta : Option ℤ
  net_recv_delta : Option ℤ
  top_processes : List MProc
deriving DecidableEq

/-- One committed row of the `snapshots` table; every column except the
two deltas is NOT NULL. -/
structure SnapRow where
  id : ℕ
  ts : String
  hostname : String
  os_name : String
  os_release : String
  cpu_percent : ℚ
  mem_total : ℤ
  mem_used : ℤ
  mem_percent : ℚ
  disk_path : String
  disk_total : ℤ
  disk_used : ℤ
  disk_percent : ℚ
  net_sent : ℤ
  net_recv : ℤ
  net_sent_delta : Option ℤ
  net_recv_delta : Option ℤ
deriving DecidableEq

/-- One committed row of the `process_samples` table. -/
structure ProcRow where
  id : ℕ
  snapshot_id : ℕ
  pid : ℤ
  name : String
  cpu_percent : ℚ
  mem_rss : ℤ
deriving DecidableEq

/-- The database state: the two tables in physical insertion order plus
the AUTOINCREMENT counters. -/
structure Store where
  snaps : List SnapRow
  procs : List ProcRow
  next_snap_id : ℕ
  next_proc_id : ℕ
deriving DecidableEq

/-- An error surfaced by `save_snapshot`: a NOT NULL constraint violation
at `execute`, a Python conversion error (such as `int(None)` on a process
pid), or an environment failure (I/O, locking, ...) injected by the
failure oracle. -/
inductive DbError where
  | integrity : DbError
  | typeErr : DbError
  | injected : DbError
deriving DecidableEq

/-- Embeds `init_db`: a fresh database has both tables empty and both
AUTOINCREMENT counters at 1. -/
def init_db : Store :=
  { snaps := [], procs := [], next_snap_id := 1, next_proc_id := 1 }

/-- The row the snapshot INSERT of `save_snapshot` writes, checking the
NOT NULL constraints of the declared schema (a `None` in any NOT NULL
column raises an IntegrityError at `execute`); the two delta columns are
nullable and stored as given. -/
def mkSnapRow (id : ℕ) (s : MSnap) : Except DbError SnapRow :=
  match s.ts, s.hostname, s.os_name, s.os_release, s.cpu_percent,
      s.mem_total, s.mem_used, s.mem_percent, s.disk_path, s.disk_total,
      s.disk_used, s.disk_percent, s.net_sent, s.net_recv with
  | some ts, some hostname, some os_name, some os_release, some cpu_percent,
      some mem_total, some mem_used, some mem_percent, some disk_path,
      some disk_total, some disk_used, some disk_percent, some net_sent,
      some net_recv =>
    Except.ok
      { id := id, ts := ts, hostname := hostname, os_name := os_name
        os_release := os_release, cpu_percent := cpu_percent
        mem_total := mem_total, mem_used := mem_used, mem_percent := mem_percent
        disk_path := disk_path, disk_total := disk_total, disk_used := disk_used
        disk_percent := disk_percent, net_sent := net_sent, net_recv := net_recv
        net_sent_delta := s.net_sent_delta, net_recv_delta := s.net_recv_delta }
  | _, _, _, _, _, _, _, _, _, _, _, _, _, _ => Except.error DbError.integrity

/-- The row one iteration of the process loop of `save_snapshot` writes:
`int(proc.get("pid"))` raises on `None`; `str(proc.get("name") or
"unknown")` maps a missing or falsy name to `"unknown"`;
`float(proc.get("cpu_percent") or 0.0)` and `int(proc.get("mem_rss") or
0)` default missing values to zero. -/
def mkProcRow (id snapshot_id : ℕ) (p : MProc) : Except DbError ProcRow :=
  match p.pid with
  | none => Except.error DbError.typeErr
  | some pid =>
    Except.ok
      { id := id, snapshot_id := snapshot_id, pid := pid
        name := match p.name with
          | some s => if s = "" then "unknown" else s
          | none => "unknown"
        cpu_percent := match p.cpu_percent with
          | some q => q
          | none => 0
        mem_rss := match p.mem_rss with
          | some n => n
          | none => 0 }

/-- The `for proc in snapshot.get("top_processes", [])` loop: builds each
process row in order, consulting the failure oracle for the k-th
`execute` of the transaction; stops at the first error, which the caller
turns into a rollback. -/
def insertProcs (oracle : ℕ → Bool) (sid : ℕ) :
    ℕ → ℕ → List MProc → Except DbError (List ProcRow)
  | _, _, [] => Except.ok []
  | next_id, k, p :: ps =>
    match mkProcRow next_id sid p with
    | Except.error e => Except.error e
    | Except.ok row =>
      if oracle k then Except.error DbError.injected
      else
        match insertProcs oracle sid (next_id + 1) (k + 1) ps with
        | Except.error e => Except.error e
        | Except.ok rest => Except.ok (row :: rest)

/-- Embeds `save_snapshot(db_path, snapshot)`: inside the try block, the
snapshot INSERT (NOT NULL checks plus oracle slot 0), `lastrowid`, and the
process-row loop (oracle slots 1, 2, ...); on success everything commits
at once and the new snapshot id is returned, on any error the transaction
rolls back, leaving the store unchanged, and the error is re-raised.
The `oracle` argument models the environment: `oracle k = true` means the
k-th `execute` of this transaction fails for an external reason.
`saveAttempt` is the body of the try block: the snapshot INSERT (NOT NULL
checks plus oracle slot 0), then the process-row loop (oracle slots 1,
2, ...), stopping at the first raised error. -/
def saveAttempt (oracle : ℕ → Bool) (st : Store) (snapshot : MSnap) :
    Except DbError (SnapRow × List ProcRow) :=
  match mkSnapRow st.next_snap_id snapshot with
  | Except.error e => Except.error e
  | Except.ok row =>
    if oracle 0 then Except.error DbError.injected
    else
      match insertProcs oracle st.next_snap_id st.next_proc_id 1
          snapshot.top_processes with
      | Except.error e => Except.error e
      | Except.ok procRows => Except.ok (row, procRows)

/-- The commit-or-rollback wrapper of `save_snapshot`: on success of the
try block everything commits at once and the new snapshot id is
returned; on any error the transaction rolls back (store unchanged) and
the error propagates. -/
def save_snapshot (oracle : ℕ → Bool) (st : Store) (snapshot : MSnap) :
    Store × Except DbError ℕ :=
  match saveAttempt oracle st snapshot with
  | Except.error e => (st, Except.error e)
  | Except.ok (row, procRows) =>
    ({ snaps := st.snaps ++ [row]
       procs := st.procs ++ procRows
       next_snap_id := st.next_snap_id + 1
       next_proc_id := st.next_proc_id + procRows.length }, Except.ok st.next_snap_id)

/-- One rehydrated process dict (step 3 of `get_snapshots`). -/
structure RProc where
  pid : ℤ
  name : String
  cpu_percent : ℚ
  mem_rss : ℤ
deriving DecidableEq

/-- One rehydrated snapshot dict (step 4 of `get_snapshots`), with the
nested dict structure flattened the same way as `MSnap`. -/
structure RSnap where
  ts : String
  hostname : String
  os_name : String
  os_release : String
  cpu_percent : ℚ
  mem_total : ℤ
  mem_used : ℤ
  mem_percent : ℚ
  disk_path : String
  disk_total : ℤ
  disk_used : ℤ
  disk_percent : ℚ
  net_sent : ℤ
  net_recv : ℤ
  net_sent_delta : Option ℤ
  net_recv_delta : Option ℤ
  top_processes : List RProc
deriving DecidableEq

/-- Insert into a list sorted by descending `id`, keeping larger ids
first (the comparison mirrors `ORDER BY id DESC`). -/
def insertDesc (r : SnapRow) : List SnapRow → List SnapRow
  | [] => [r]
  | x :: xs => if x.id ≤ r.id then r :: x :: xs else x :: insertDesc r xs

/-- The result set of `SELECT * FROM snapshots ORDER BY id DESC`:
the table rows sorted by descending id. -/
def sortDescById : List SnapRow → List SnapRow
  | [] => []
  | r :: rs => insertDesc r (sortDescById rs)

/-- Stable insert into a list sorted by ascending `snapshot_id`. -/
def insertAsc (p : ProcRow) : List ProcRow → List ProcRow
  | [] => [p]
  | x :: xs =>
    if p.snapshot_id ≤ x.snapshot_id then p :: x :: xs else x :: insertAsc p xs

/-- The `ORDER BY snapshot_id` of the process query, as a stable sort of
the filtered rows (ties keep physical table order, matching the index
scan). -/
def sortAscBySnapshotId : List ProcRow → List ProcRow
  | [] => []
  | p :: ps => insertAsc p (sortAscBySnapshotId ps)

/-- The dict built from one process row in step 3 of `get_snapshots`
(`p["name"] or "unknown"` maps an empty name to `"unknown"`). -/
def toRProc (p : ProcRow) : RProc :=
  { pid := p.pid
    name := if p.name = "" then "unknown" else p.name
    cpu_percent := p.cpu_percent
    mem_rss := p.mem_rss }

/-- The process list attached to snapshot `sid`: the rows of the fetched
result set with that `snapshot_id`, in result-set order. This models the
`procs_by_id` dict of step 3 (append in traversal order, then
`.get(sid, [])`). -/
def procsFor (proc_rows : List ProcRow) (sid : ℕ) : List RProc :=
  (proc_rows.filter (fun p => p.snapshot_id == sid)).map toRProc

/-- The dict built from one snapshot row in step 4 of `get_snapshots`,
with the `or "unknown"` fallbacks for the text identity columns and
`or ""` for the disk path (which is the identity on a string column). -/
def rehydrateRow (r : SnapRow) (procs : List RProc) : RSnap :=
  { ts := r.ts
    hostname := if r.hostname = "" then "unknown" else r.hostname
    os_name := if r.os_name = "" then "unknown" else r.os_name
    os_release := if r.os_release = "" then "unknown" else r.os_release
    cpu_percent := r.cpu_percent
    mem_total := r.mem_total
    mem_used := r.mem_used
    mem_percent := r.mem_percent
    disk_path := r.disk_path
    disk_total := r.disk_total
    disk_used := r.disk_used
    disk_percent := r.disk_percent
    net_sent := r.net_sent
    net_recv := r.net_recv
    net_sent_delta := r.net_sent_delta
    net_recv_delta := r.net_recv_delta
    top_processes := procs }

/-- Embeds `get_snapshots(db_path, last_lines)`: empty for `n <= 0`;
otherwise the last `n` snapshot rows by descending id, reversed back to
chronological order, with the process rows fetched only for those
snapshot ids, grouped, and each row rehydrated to the closed schema. -/
def get_snapshots (st : Store) (last_lines : ℤ) : List RSnap :=
  let n := last_lines
  if n ≤ 0 then []
  else
    let snap_rows := (sortDescById st.snaps).take n.toNat
    if snap_rows.isEmpty then []
    else
      let snap_rows := snap_rows.reverse
      let ids := snap_rows.map (fun r => r.id)
      let proc_rows :=
        sortAscBySnapshotId (st.procs.filter (fun p => ids.contains p.snapshot_id))
      snap_rows.map (fun r => rehydrateRow r (procsFor proc_rows r.id))

/-- The single-writer store invariant: snapshot rows appear in strictly
increasing id order below the AUTOINCREMENT counter, and process rows
appear grouped in ascending snapshot id order below that counter. It
holds for `init_db` and is preserved by `save_snapshot`. -/
def StoreInv (st : Store) : Prop :=
  st.snaps.Pairwise (fun a b => a.id < b.id)
    ∧ (∀ r ∈ st.snaps, r.id < st.next_snap_id)
    ∧ st.procs.Pairwise (fun a b => a.snapshot_id ≤ b.snapshot_id)
    ∧ (∀ p ∈ st.procs, p.snapshot_id < st.next_snap_id)

instance (st : Store) : Decidable (StoreInv st) := by
  unfold StoreInv
  infer_instance

end Storage

/-! Concrete inputs used by the witnesses and counterexamples below. -/

/-- A configuration with no `anomalies` keys set: thresholds default to 90
and the network threshold is disabled. -/
def cfg0 : Analyzer.ACfg :=
  { cpu_percent_high := none, mem_percent_high := none, net_delta_high := none }

/-- A snapshot whose two network deltas are both null (the shape every
first-tick snapshot has). -/
def sBothNull : Analyzer.ASnap :=
  { ts := some "T0", cpu_percent := .num 0, mem_percent := .num 0
    disk_percent := .num 0, disk_path := none
    sent_delta := .null, recv_delta := .null }

/-- A snapshot with `cpu_percent = 95.0` and everything else low. -/
def sCpu95 : Analyzer.ASnap :=
  { ts := some "T1", cpu_percent := .num 95, mem_percent := .num 10
    disk_percent := .num 0, disk_path := none
    sent_delta := .null, recv_delta := .null }

/-- A snapshot with both CPU and memory over the default threshold. -/
def sCpuMem : Analyzer.ASnap :=
  { ts := some "T2", cpu_percent := .num 95, mem_percent := .num 97
    disk_percent := .num 0, disk_path := none
    sent_delta := .null, recv_delta := .null }

/-- Modelled from the claim wording of C6: the number of samples whose
delta is null in either direction. Compared against what the code
actually counts. -/
def samplesWithNullDelta (l : List Analyzer.ASnap) : ℕ :=
  l.countP (fun s =>
    (Analyzer.int_or_none s.sent_delta).isNone
      || (Analyzer.int_or_none s.recv_delta).isNone)

/-- A tick whose metrics read returns the given counters and whose save
succeeds. -/
def tickOk (s r : ℤ) : Runner.TickInput :=
  { collect := .ok { sent := s, recv := r }, saveFail := false }

/-- A five-tick schedule in which only tick 2 fails (its persistence call
raises); every other tick reads and saves normally. -/
def fiveTickSchedule : List Runner.TickInput :=
  [tickOk 100 200,
   { collect := .ok { sent := 110, recv := 210 }, saveFail := true },
   tickOk 120 220, tickOk 130 230, tickOk 140 240]

/-- The failure oracle of an environment in which no `execute` fails. -/
def noFailOracle : ℕ → Bool := fun _ => false

/-- A single well-formed process entry. -/
def proc1 : Storage.MProc :=
  { pid := some 42, name := some "pyth", cpu_percent := some 1, mem_rss := some 1000 }

/-- A well-formed snapshot dict with the given timestamp and one process. -/
def msnapAt (t : String) : Storage.MSnap :=
  { ts := some t, hostname := some "h", os_name := some "os"
    os_release := some "rel", cpu_percent := some 10
    mem_total := some 100, mem_used := some 50, mem_percent := some 50
    disk_path := some "/", disk_total := some 1000, disk_used := some 500
    disk_percent := some 50, net_sent := some 7, net_recv := some 8
    net_sent_delta := none, net_recv_delta := none
    top_processes := [proc1] }

/-- The store after saving snapshots `"t1"`, `"t2"`, `"t3"` in that order
into a fresh database. -/
def store3 : Storage.Store :=
  (Storage.save_snapshot noFailOracle
    (Storage.save_snapshot noFailOracle
      (Storage.save_snapshot noFailOracle Storage.init_db (msnapAt "t1")).1
      (msnapAt "t2")).1
    (msnapAt "t3")).1

/-- A snapshot dict with a `None` timestamp: its INSERT violates the
NOT NULL constraint on `ts`. -/
def badSnap : Storage.MSnap :=
  { msnapAt "bad" with ts := none }

/-! Supporting lemmas for the analyzer loop. -/

open Analyzer Runner Storage

/-- Unfolding of the `for s in snapshots` loop of `analyze`: the fold
appends the per-sample series values, adds the per-sample total
contributions, and appends the per-sample anomaly entries. -/
theorem foldl_step_eq (c m : ℚ) (n : Option ℤ) (l : List ASnap) (st : LoopSt) :
    l.foldl (step c m n) st =
      { cpu_vals := st.cpu_vals ++ l.map (fun s => num s.cpu_percent 0)
        mem_vals := st.mem_vals ++ l.map (fun s => num s.mem_percent 0)
        disk_vals := st.disk_vals ++ l.map (fun s => num s.disk_percent 0)
        sent_total := st.sent_total + (l.map sentContrib).sum
        recv_total := st.recv_total + (l.map recvContrib).sum
        deltas_ignored := st.deltas_ignored + (l.map ignoredContrib).sum
        anomalies := st.anomalies ++ l.filterMap (anomalyOf c m n) } := by
  induction l generalizing st with
  | nil => simp
  | cons s rest ih =>
    rw [List.foldl_cons, ih]
    cases h : anomalyOf c m n s <;>
      simp [step, h, List.filterMap_cons, add_assoc, List.append_assoc]

/-- The folded `sent_total` equals the sum of the non-null sent deltas
with negative values clamped to zero. -/
theorem sum_sentContrib (l : List ASnap) :
    (l.map sentContrib).sum
      = ((l.filterMap (fun s => int_or_none s.sent_delta)).map (fun d => max d 0)).sum := by
  induction l with
  | nil => rfl
  | cons s rest ih =>
    simp only [List.map_cons, List.sum_cons, List.filterMap_cons]
    cases h : int_or_none s.sent_delta with
    | none => simpa [sentContrib, h] using ih
    | some d =>
      simp only [List.map_cons, List.sum_cons, sentContrib, h]
      rw [ih]
      congr 1
      rcases lt_or_le d 0 with hd | hd
      · simp [hd, max_eq_right hd.le]
      · simp [not_lt.mpr hd, max_eq_left hd]

/-- The folded `recv_total` equals the sum of the non-null receive deltas
with negative values clamped to zero. -/
theorem sum_recvContrib (l : List ASnap) :
    (l.map recvContrib).sum
      = ((l.filterMap (fun s => int_or_none s.recv_delta)).map (fun d => max d 0)).sum := by
  induction l with
  | nil => rfl
  | cons s rest ih =>
    simp only [List.map_cons, List.sum_cons, List.filterMap_cons]
    cases h : int_or_none s.recv_delta with
    | none => simpa [recvContrib, h] using ih
    | some d =>
      simp only [List.map_cons, List.sum_cons, recvContrib, h]
      rw [ih]
      congr 1
      rcases lt_or_le d 0 with hd | hd
      · simp [hd, max_eq_right hd.le]
      · simp [not_lt.mpr hd, max_eq_left hd]

/-- The folded `deltas_ignored` equals the number of null sent deltas plus
the number of null receive deltas. -/
theorem sum_ignoredContrib (l : List ASnap) :
    (l.map ignoredContrib).sum
      = l.countP (fun s => (int_or_none s.sent_delta).isNone)
        + l.countP (fun s => (int_or_none s.recv_delta).isNone) := by
  induction l with
  | nil => rfl
  | cons s rest ih =>
    simp only [List.map_cons, List.sum_cons, List.countP_cons, ih, ignoredContrib]
    rcases h1 : int_or_none s.sent_delta with _ | d <;>
      rcases h2 : int_or_none s.recv_delta with _ | e <;>
        simp [h1, h2] <;> omega

/-- A left fold of `Min.min` computes a least element of the list. -/
theorem foldl_min_spec (v : ℚ) (vs : List ℚ) :
    vs.foldl Min.min v ∈ v :: vs ∧ ∀ x ∈ v :: vs, vs.foldl Min.min v ≤ x := by
  induction vs generalizing v with
  | nil => simp
  | cons w ws ih =>
    have h := ih (Min.min v w)
    rw [List.foldl_cons]
    constructor
    · rcases List.mem_cons.mp h.1 with h1 | h1
      · rcases min_choice v w with hm | hm <;> rw [h1, hm] <;> simp
      · simp [List.mem_cons]
        tauto
    · intro x hx
      rcases List.mem_cons.mp hx with rfl | hx
      · exact le_trans (h.2 _ (List.mem_cons_self _ _)) (min_le_left _ _)
      rcases List.mem_cons.mp hx with rfl | hx
      · exact le_trans (h.2 _ (List.mem_cons_self _ _)) (min_le_right _ _)
      · exact h.2 _ (List.mem_cons_of_mem _ hx)

/-- A left fold of `Max.max` computes a greatest element of the list. -/
theorem foldl_max_spec (v : ℚ) (vs : List ℚ) :
    vs.foldl Max.max v ∈ v :: vs ∧ ∀ x ∈ v :: vs, x ≤ vs.foldl Max.max v := by
  induction vs generalizing v with
  | nil => simp
  | cons w ws ih =>
    have h := ih (Max.max v w)
    rw [List.foldl_cons]
    constructor
    · rcases List.mem_cons.mp h.1 with h1 | h1
      · rcases max_choice v w with hm | hm <;> rw [h1, hm] <;> simp
      · simp [List.mem_cons]
        tauto
    · intro x hx
      rcases List.mem_cons.mp hx with rfl | hx
      · exact le_trans (le_max_left _ _) (h.2 _ (List.mem_cons_self _ _))
      rcases List.mem_cons.mp hx with rfl | hx
      · exact le_trans (le_max_right _ _) (h.2 _ (List.mem_cons_self _ _))
      · exact h.2 _ (List.mem_cons_of_mem _ hx)

/-- C8: for the empty input list and any configuration, `analyze` returns
a well-defined empty Analysis, field by field: null time range (start and
end), count 0, null min/avg/max for each of the three metrics, null disk
path and last percent, zero sent_total, recv_total and deltas_ignored,
empty anomaly list, null last-sample reference, and empty series arrays. -/
theorem analyze_empty_field_by_field (cfg : ACfg) :
    (analyze [] cfg).time_range.start = none
    ∧ (analyze [] cfg).time_range.end_ = none
    ∧ (analyze [] cfg).count = 0
    ∧ (analyze [] cfg).metrics.cpu_percent = { min := none, avg := none, max := none }
    ∧ (analyze [] cfg).metrics.mem_percent = { min := none, avg := none, max := none }
    ∧ (analyze [] cfg).metrics.disk_percent = { min := none, avg := none, max := none }
    ∧ (analyze [] cfg).disk.path = none
    ∧ (analyze [] cfg).disk.last_percent = none
    ∧ (analyze [] cfg).net.sent_total = 0
    ∧ (analyze [] cfg).net.recv_total = 0
    ∧ (analyze [] cfg).net.deltas_ignored = 0
    ∧ (analyze [] cfg).anomalies = []
    ∧ (analyze [] cfg).last_snapshot = none
    ∧ (analyze [] cfg).series.cpu_percent = []
    ∧ (analyze [] cfg).series.mem_percent = []
    ∧ (analyze [] cfg).series.disk_percent = [] :=
  ⟨rfl, rfl, rfl, rfl, rfl, rfl, rfl, rfl, rfl, rfl, rfl, rfl, rfl, rfl, rfl, rfl⟩

/-- C9: on a non-empty series, `min_avg_max` returns a least element of
the series, the arithmetic mean (unrounded sum divided by count), and a
greatest element; in particular on `[10, 20, 30]` it returns min 10,
avg 20, max 30. -/
theorem min_avg_max_spec (v : ℚ) (vs : List ℚ) :
    (∃ m M : ℚ,
      min_avg_max (v :: vs)
          = { min := some m
              avg := some ((v :: vs).sum / ((v :: vs).length : ℚ))
              max := some M }
        ∧ m ∈ v :: vs ∧ (∀ x ∈ v :: vs, m ≤ x)
        ∧ M ∈ v :: vs ∧ (∀ x ∈ v :: vs, x ≤ M))
    ∧ min_avg_max [10, 20, 30] = { min := some 10, avg := some 20, max := some 30 } := by
  refine ⟨⟨vs.foldl Min.min v, vs.foldl Max.max v, rfl, ?_, ?_, ?_, ?_⟩, by
    norm_num [min_avg_max, List.foldl_cons, List.sum_cons]⟩
  · exact (foldl_min_spec v vs).1
  · exact (foldl_min_spec v vs).2
  · exact (foldl_max_spec v vs).1
  · exact (foldl_max_spec v vs).2

/-- C10: the three series arrays of `analyze` each have length equal to
the result count, which equals the input length, and elementwise hold the
coerced percentage of the corresponding input sample (missing or
non-numeric values coerced to 0). -/
theorem analyze_series_aligned (l : List ASnap) (cfg : ACfg) :
    (analyze l cfg).count = l.length
    ∧ (analyze l cfg).series.cpu_percent = l.map (fun s => num s.cpu_percent 0)
    ∧ (analyze l cfg).series.mem_percent = l.map (fun s => num s.mem_percent 0)
    ∧ (analyze l cfg).series.disk_percent = l.map (fun s => num s.disk_percent 0)
    ∧ (analyze l cfg).series.cpu_percent.length = (analyze l cfg).count
    ∧ (analyze l cfg).series.mem_percent.length = (analyze l cfg).count
    ∧ (analyze l cfg).series.disk_percent.length = (analyze l cfg).count := by
  cases l with
  | nil => exact ⟨rfl, rfl, rfl, rfl, rfl, rfl, rfl⟩
  | cons s0 rest =>
    have h := foldl_step_eq (cfg.cpu_percent_high.getD 90) (cfg.mem_percent_high.getD 90)
      cfg.net_delta_high (s0 :: rest) initLoopSt
    simp only [analyze]
    rw [h]
    simp [initLoopSt]

/-- C6 counterexample: on a single sample whose deltas are null in both
directions, `analyze` reports `deltas_ignored = 2`, while the number of
samples with a null delta in either direction is 1 — the code counts null
delta fields per direction, not samples. -/
theorem deltas_ignored_counts_fields_cex :
    (analyze [sBothNull] cfg0).net.deltas_ignored = 2
    ∧ samplesWithNullDelta [sBothNull] = 1
    ∧ (analyze [sBothNull] cfg0).net.deltas_ignored ≠ samplesWithNullDelta [sBothNull] :=
  ⟨rfl, rfl, by decide⟩

/-- C6 (amended): `analyze` sums all non-null `sent_delta` values (with
negative values clamped, so negative deltas are never summed) into
`sent_total`, likewise for `recv_total`, and `deltas_ignored` counts the
null delta fields per direction: the number of samples with a null
`sent_delta` plus the number of samples with a null `recv_delta` (a
sample that is null in both directions contributes two). -/
theorem net_totals_amended (l : List ASnap) (cfg : ACfg) :
    (analyze l cfg).net.sent_total
        = ((l.filterMap (fun s => int_or_none s.sent_delta)).map (fun d => max d 0)).sum
    ∧ (analyze l cfg).net.recv_total
        = ((l.filterMap (fun s => int_or_none s.recv_delta)).map (fun d => max d 0)).sum
    ∧ (analyze l cfg).net.deltas_ignored
        = l.countP (fun s => (int_or_none s.sent_delta).isNone)
          + l.countP (fun s => (int_or_none s.recv_delta).isNone) := by
  cases l with
  | nil => exact ⟨rfl, rfl, rfl⟩
  | cons s0 rest =>
    have h := foldl_step_eq (cfg.cpu_percent_high.getD 90) (cfg.mem_percent_high.getD 90)
      cfg.net_delta_high (s0 :: rest) initLoopSt
    simp only [analyze]
    rw [h]
    simp only [initLoopSt, zero_add]
    exact ⟨sum_sentContrib _, sum_recvContrib _, sum_ignoredContrib _⟩

/-- The clamp of a delta is null exactly when the delta was null. -/
theorem clampDelta_eq_none (d : Option ℤ) : clampDelta d = none ↔ d = none :=
  Option.map_eq_none'

/-- A sent-side network reason can only be accumulated for a sample whose
sent delta is not null. -/
theorem net_sent_reason_needs_delta (c m : ℚ) (n : Option ℤ) (s : ASnap) (th : ℤ)
    (h : Reason.net_sent_delta_high th ∈ sampleReasons c m n s) :
    int_or_none s.sent_delta ≠ none := by
  intro hnone
  unfold sampleReasons at h
  rw [hnone] at h
  rcases n with _ | th2 <;> rcases hr : int_or_none s.recv_delta with _ | dr <;>
    rw [hr] at h <;> simp at h

/-- A receive-side network reason can only be accumulated for a sample
whose receive delta is not null. -/
theorem net_recv_reason_needs_delta (c m : ℚ) (n : Option ℤ) (s : ASnap) (th : ℤ)
    (h : Reason.net_recv_delta_high th ∈ sampleReasons c m n s) :
    int_or_none s.recv_delta ≠ none := by
  intro hnone
  unfold sampleReasons at h
  rw [hnone] at h
  rcases n with _ | th2 <;> rcases hs : int_or_none s.sent_delta with _ | ds <;>
    rw [hs] at h <;> simp at h

/-- C7: anomaly reasons are evaluated independently and accumulated into
one reason list per sample (the anomaly list is the per-sample
`anomalyOf` entries of the input, in order); a sample with
`cpu_percent = 95` under threshold 90 yields exactly one anomaly entry
whose only reason is `cpu_percent_high`; a sample with CPU and memory
both over threshold yields one entry with the two reasons; and a null
network delta never triggers a network anomaly. -/
theorem anomaly_reasons_accumulated :
    ((analyze [sCpu95] cfg0).anomalies.length = 1
      ∧ (analyze [sCpu95] cfg0).anomalies.map (fun a => a.reasons)
          = [[Reason.cpu_percent_high 90]])
    ∧ ((analyze [sCpuMem] cfg0).anomalies.length = 1
      ∧ (analyze [sCpuMem] cfg0).anomalies.map (fun a => a.reasons)
          = [[Reason.cpu_percent_high 90, Reason.mem_percent_high 90]])
    ∧ (∀ (l : List ASnap) (cfg : ACfg),
        (analyze l cfg).anomalies
          = l.filterMap (anomalyOf (cfg.cpu_percent_high.getD 90)
              (cfg.mem_percent_high.getD 90) cfg.net_delta_high))
    ∧ (∀ (l : List ASnap) (cfg : ACfg) (a : Anomaly) (th : ℤ),
        a ∈ (analyze l cfg).anomalies →
          (a.net_sent_delta = none → Reason.net_sent_delta_high th ∉ a.reasons)
          ∧ (a.net_recv_delta = none → Reason.net_recv_delta_high th ∉ a.reasons)) := by
  have hfm : ∀ (l : List ASnap) (cfg : ACfg),
      (analyze l cfg).anomalies
        = l.filterMap (anomalyOf (cfg.cpu_percent_high.getD 90)
            (cfg.mem_percent_high.getD 90) cfg.net_delta_high) := by
    intro l cfg
    cases l with
    | nil => rfl
    | cons s0 rest =>
      have h := foldl_step_eq (cfg.cpu_percent_high.getD 90) (cfg.mem_percent_high.getD 90)
        cfg.net_delta_high (s0 :: rest) initLoopSt
      simp only [analyze]
      rw [h]
      simp [initLoopSt]
  refine ⟨⟨by decide, by decide⟩, ⟨by decide, by decide⟩, hfm, ?_⟩
  intro l cfg a th ha
  rw [hfm l cfg] at ha
  obtain ⟨s, _, hsome⟩ := List.mem_filterMap.mp ha
  simp only [anomalyOf] at hsome
  split at hsome
  · cases hsome
  · rw [Option.some_inj] at hsome
    subst hsome
    constructor
    · intro hnull hmem
      exact net_sent_reason_needs_delta _ _ _ _ _ hmem ((clampDelta_eq_none _).mp hnull)
    · intro hnull hmem
      exact net_recv_reason_needs_delta _ _ _ _ _ hmem ((clampDelta_eq_none _).mp hnull)

/-- One tick always increments the tick counter, and increments the saved
counter exactly when the tick read and saved successfully. -/
theorem tick_counts (st : RunSt) (i : TickInput) :
    (tick st i).1.ticks = st.ticks + 1
    ∧ (tick st i).1.snapshots_saved
        = st.snapshots_saved + (if i.succeeds then 1 else 0) := by
  rcases i with ⟨c, sf⟩
  cases c <;> cases sf <;> simp [tick, TickInput.succeeds]

/-- The loop processes every scheduled tick: the tick counter grows by the
schedule length, the saved counter by the number of fully successful
ticks, and one trace entry is produced per tick. -/
theorem loop_counts (inps : List TickInput) (st : RunSt) :
    (loop st inps).1.ticks = st.ticks + inps.length
    ∧ (loop st inps).1.snapshots_saved
        = st.snapshots_saved + (inps.filter TickInput.succeeds).length
    ∧ (loop st inps).2.length = inps.length := by
  induction inps generalizing st with
  | nil => simp [loop]
  | cons i rest ih =>
    have h := ih (tick st i).1
    have ht := tick_counts st i
    refine ⟨?_, ?_, ?_⟩
    · show (loop (tick st i).1 rest).1.ticks = _
      rw [h.1, ht.1, List.length_cons]
      omega
    · show (loop (tick st i).1 rest).1.snapshots_saved = _
      rw [h.2.1, ht.2, List.filter_cons]
      cases hf : i.succeeds <;> simp [hf] <;> omega
    · show ((tick st i).2 :: (loop (tick st i).1 rest).2).length = _
      simp [h.2.2]

/-- C4: a failure within any single tick never aborts the run: every
scheduled tick is processed (tick count and trace length equal the
schedule length) and the saved count equals the number of ticks whose
read and save both succeeded; in particular a 5-tick run in which only
tick 2 fails yields 4 saved snapshots and `ticks = 5`. -/
theorem run_tick_failures_tolerated (inps : List TickInput) :
    ((runTicks inps).1.ticks = inps.length
      ∧ (runTicks inps).1.snapshots_saved
          = (inps.filter TickInput.succeeds).length
      ∧ (runTicks inps).2.length = inps.length)
    ∧ (runTicks fiveTickSchedule).1.ticks = 5
    ∧ (runTicks fiveTickSchedule).1.snapshots_saved = 4 := by
  have h := loop_counts inps initSt
  exact ⟨⟨by simpa [initSt] using h.1, by simpa [initSt] using h.2.1, h.2.2⟩,
    by decide, by decide⟩

/-- C5: the first tick of a fresh run always yields null deltas: the
run-scoped previous counters start empty (independent of any persisted
history, which `run` never reads for delta state), so the first
successfully read tick reports `sent_delta = recv_delta = None`, whether
or not its save succeeds. -/
theorem first_tick_deltas_null (raw : RawNet) (sf : Bool) (rest : List TickInput) :
    initSt.prev_sent = none
    ∧ initSt.prev_recv = none
    ∧ (runTicks ({ collect := .ok raw, saveFail := sf } :: rest)).2.head?
        = some (if sf then TickResult.processedSaveFailed none none
                else TickResult.saved none none) := by
  refine ⟨rfl, rfl, ?_⟩
  cases sf <;> simp [runTicks, loop, tick, computeDeltas, initSt]

/-- C2: for consecutive raw counter readings within one run — the stored
previous counters hold `(a, pr)` and the current reading is `(b, rv)` —
the computed deltas are `b - a` when `b ≥ a` and exactly 0 when `b < a`
(and symmetrically on the receive side), the tick reports exactly those
deltas, and the stored previous counters are updated to the current raw
readings regardless of clamping and of save success. -/
theorem tick_delta_correct (st : RunSt) (a pr b rv : ℤ) (sf : Bool)
    (hs : st.prev_sent = some a) (hr : st.prev_recv = some pr) :
    (tick st { collect := .ok { sent := b, recv := rv }, saveFail := sf }).1.prev_sent = some b
    ∧ (tick st { collect := .ok { sent := b, recv := rv }, saveFail := sf }).1.prev_recv = some rv
    ∧ computeDeltas st.prev_sent st.prev_recv b rv
        = (some (if a ≤ b then b - a else 0), some (if pr ≤ rv then rv - pr else 0))
    ∧ (tick st { collect := .ok { sent := b, recv := rv }, saveFail := sf }).2
        = (if sf then TickResult.processedSaveFailed else TickResult.saved)
            (some (if a ≤ b then b - a else 0)) (some (if pr ≤ rv then rv - pr else 0)) := by
  rcases st with ⟨ps, prv, sv, tk⟩
  obtain rfl : ps = some a := hs
  obtain rfl : prv = some pr := hr
  refine ⟨?_, ?_, ?_, ?_⟩ <;> cases sf <;>
    simp [tick, computeDeltas] <;>
    exact ⟨by split_ifs <;> omega, by split_ifs <;> omega⟩

/-- C2 witness: a concrete consecutive pair with a counter reset on the
sent side (`10` then `7`, clamped to 0) and a normal increase on the
receive side (`20` then `25`, delta 5). -/
theorem tick_delta_correct_witness :
    computeDeltas (some 10) (some 20) 7 25 = (some 0, some 5) := by
  have h := tick_delta_correct (Runner.RunSt.mk (some 10) (some 20) 0 0)
    10 20 7 25 false rfl rfl
  have h3 := h.2.2.1
  norm_num at h3
  exact h3

/-- A successful process-row loop writes exactly one row per process
entry. -/
theorem insertProcs_ok_length (oracle : ℕ → Bool) (sid : ℕ) :
    ∀ (ps : List MProc) (next_id k : ℕ) (rows : List ProcRow),
      insertProcs oracle sid next_id k ps = Except.ok rows →
      rows.length = ps.length := by
  intro ps
  induction ps with
  | nil =>
    intro next_id k rows h
    simp only [insertProcs] at h
    cases h
    rfl
  | cons p rest ih =>
    intro next_id k rows h
    simp only [insertProcs] at h
    cases hm : mkProcRow next_id sid p with
    | error e => rw [hm] at h; cases h
    | ok row =>
      rw [hm] at h
      dsimp only at h
      by_cases ho : oracle k
      · rw [if_pos ho] at h; cases h
      · rw [if_neg ho] at h
        cases hr : insertProcs oracle sid (next_id + 1) (k + 1) rest with
        | error e => rw [hr] at h; cases h
        | ok rows0 =>
          rw [hr] at h
          cases h
          simp [ih _ _ _ hr]

/-- A successful try block means the snapshot row was built and the
process loop completed. -/
theorem saveAttempt_ok (oracle : ℕ → Bool) (st : Store) (snap : MSnap)
    (row : SnapRow) (procRows : List ProcRow)
    (h : saveAttempt oracle st snap = Except.ok (row, procRows)) :
    mkSnapRow st.next_snap_id snap = Except.ok row
    ∧ insertProcs oracle st.next_snap_id st.next_proc_id 1 snap.top_processes
        = Except.ok procRows := by
  unfold saveAttempt at h
  cases hm : mkSnapRow st.next_snap_id snap with
  | error e => rw [hm] at h; cases h
  | ok row0 =>
    rw [hm] at h
    dsimp only at h
    by_cases ho : oracle 0
    · rw [if_pos ho] at h; cases h
    · rw [if_neg ho] at h
      cases hp : insertProcs oracle st.next_snap_id st.next_proc_id 1 snap.top_processes with
      | error e => rw [hp] at h; cases h
      | ok rows0 =>
        rw [hp] at h
        cases h
        exact ⟨rfl, rfl⟩

/-- C1: `save_snapshot` is atomic and propagates errors. For every
failure oracle, store state and snapshot: if the save returns an error
(any insert of the transaction failed), the store is unchanged, so a
subsequent `get_snapshots` read shows neither the snapshot row nor any of
its process rows, and the error reaches the caller; if the save returns
an id, the commit appended the snapshot row together with one process row
per process entry, all in one step. -/
theorem save_snapshot_atomic (oracle : ℕ → Bool) (st : Store) (snap : MSnap) :
    (∀ e, (save_snapshot oracle st snap).2 = Except.error e →
      (save_snapshot oracle st snap).1 = st
      ∧ ∀ n, get_snapshots (save_snapshot oracle st snap).1 n = get_snapshots st n)
    ∧ (∀ sid, (save_snapshot oracle st snap).2 = Except.ok sid →
      sid = st.next_snap_id
      ∧ ∃ row procRows,
          mkSnapRow st.next_snap_id snap = Except.ok row
          ∧ procRows.length = snap.top_processes.length
          ∧ (save_snapshot oracle st snap).1
              = { snaps := st.snaps ++ [row]
                  procs := st.procs ++ procRows
                  next_snap_id := st.next_snap_id + 1
                  next_proc_id := st.next_proc_id + procRows.length }) := by
  cases hA : saveAttempt oracle st snap with
  | error e =>
    refine ⟨fun e h => ⟨?_, fun n => ?_⟩, fun sid h => ?_⟩
    · simp [save_snapshot, hA]
    · simp [save_snapshot, hA]
    · simp [save_snapshot, hA] at h
  | ok pair =>
    obtain ⟨row, procRows⟩ := pair
    have hok := saveAttempt_ok oracle st snap row procRows hA
    refine ⟨fun e h => ?_, fun sid h => ⟨?_, row, procRows, hok.1, ?_, ?_⟩⟩
    · simp [save_snapshot, hA] at h
    · simp [save_snapshot, hA] at h
      omega
    · exact insertProcs_ok_length oracle st.next_snap_id snap.top_processes
        st.next_proc_id 1 procRows hok.2
    · simp [save_snapshot, hA]

/-- C1 witness: saving a snapshot with a `None` timestamp into the
concrete three-snapshot store fails with an IntegrityError and leaves the
store unchanged; saving a well-formed snapshot succeeds and appends its
row and its single process row. -/
theorem save_snapshot_atomic_witness :
    ((save_snapshot noFailOracle store3 badSnap).2 = Except.error DbError.integrity
      ∧ (save_snapshot noFailOracle store3 badSnap).1 = store3)
    ∧ ((save_snapshot noFailOracle store3 (msnapAt "t4")).2 = Except.ok 4
      ∧ ∃ row procRows,
          mkSnapRow store3.next_snap_id (msnapAt "t4") = Except.ok row
          ∧ procRows.length = (msnapAt "t4").top_processes.length
          ∧ (save_snapshot noFailOracle store3 (msnapAt "t4")).1
              = { snaps := store3.snaps ++ [row]
                  procs := store3.procs ++ procRows
                  next_snap_id := store3.next_snap_id + 1
                  next_proc_id := store3.next_proc_id + procRows.length }) := by
  have hbad := (save_snapshot_atomic noFailOracle store3 badSnap).1
    DbError.integrity rfl
  have hgood := (save_snapshot_atomic noFailOracle store3 (msnapAt "t4")).2 4 rfl
  exact ⟨⟨rfl, hbad.1⟩, rfl, hgood.2⟩

/-- Inserting a row with an id smaller than everything in a
descending-sorted list lands at the end. -/
theorem insertDesc_append (r : SnapRow) :
    ∀ l : List SnapRow, (∀ x ∈ l, r.id < x.id) → insertDesc r l = l ++ [r] := by
  intro l
  induction l with
  | nil => intro _; rfl
  | cons x xs ih =>
    intro h
    have hx : r.id < x.id := h x (List.mem_cons_self _ _)
    simp only [insertDesc]
    rw [if_neg (by omega)]
    rw [ih (fun y hy => h y (List.mem_cons_of_mem _ hy))]
    rfl

/-- On a table whose rows have strictly increasing ids (single-writer
append order), `ORDER BY id DESC` is exactly the reversed table. -/
theorem sortDescById_eq_reverse :
    ∀ l : List SnapRow, l.Pairwise (fun a b => a.id < b.id) →
      sortDescById l = l.reverse := by
  intro l
  induction l with
  | nil => intro _; rfl
  | cons r rs ih =>
    intro h
    obtain ⟨hr, hrs⟩ := List.pairwise_cons.mp h
    simp only [sortDescById]
    rw [ih hrs, insertDesc_append r _ (fun x hx => hr x (List.mem_reverse.mp hx))]
    simp

/-- Stable insertion before a list whose keys are all at least the new
key is a no-op shift. -/
theorem insertAsc_of_le (p : ProcRow) (l : List ProcRow)
    (h : ∀ x ∈ l, p.snapshot_id ≤ x.snapshot_id) : insertAsc p l = p :: l := by
  cases l with
  | nil => rfl
  | cons x xs =>
    simp only [insertAsc]
    rw [if_pos (h x (List.mem_cons_self _ _))]

/-- Sorting an already ascending-sorted process result set is the
identity (the fetched rows keep table order). -/
theorem sortAscBySnapshotId_eq_self :
    ∀ l : List ProcRow, l.Pairwise (fun a b => a.snapshot_id ≤ b.snapshot_id) →
      sortAscBySnapshotId l = l := by
  intro l
  induction l with
  | nil => intro _; rfl
  | cons p ps ih =>
    intro h
    obtain ⟨hp, hps⟩ := List.pairwise_cons.mp h
    simp only [sortAscBySnapshotId]
    rw [ih hps, insertAsc_of_le p ps hp]

/-- C3: under the single-writer invariant, `get_snapshots` returns the
most recently persisted `n` samples — the length-`n` suffix of the table
in insertion order, oldest first — each rehydrated with exactly its own
process rows in table order; in particular, after saving snapshots with
timestamps `t1 < t2 < t3` into a fresh store, requesting the last 3
returns them in the order `t1, t2, t3`. -/
theorem get_snapshots_last_n_ordered (st : Store) (n : ℤ)
    (hinv : StoreInv st) (hn : 1 ≤ n) :
    get_snapshots st n
      = (st.snaps.drop (st.snaps.length - n.toNat)).map
          (fun r => rehydrateRow r
            ((st.procs.filter (fun p => p.snapshot_id == r.id)).map toRProc))
    ∧ (get_snapshots store3 3).map (fun r => r.ts) = ["t1", "t2", "t3"] := by
  refine ⟨?_, by decide⟩
  have hsd := sortDescById_eq_reverse st.snaps hinv.1
  have hprocs : st.procs.Pairwise (fun a b => a.snapshot_id ≤ b.snapshot_id) :=
    hinv.2.2.1
  simp only [get_snapshots]
  rw [if_neg (by omega : ¬ (n ≤ 0)), hsd]
  cases hsn : st.snaps with
  | nil => simp
  | cons s0 srest =>
    have hlen : 1 ≤ ((s0 :: srest).reverse.take n.toNat).length := by
      rw [List.length_take, List.length_reverse]
      simp only [List.length_cons]
      omega
    have hne : ¬ (((s0 :: srest).reverse.take n.toNat).isEmpty = true) := by
      cases hc : (s0 :: srest).reverse.take n.toNat with
      | nil => rw [hc] at hlen; simp at hlen
      | cons a l => simp
    rw [if_neg hne]
    have hS : ((s0 :: srest).reverse.take n.toNat).reverse
        = (s0 :: srest).drop ((s0 :: srest).length - n.toNat) :=
      (List.rtake_eq_reverse_take_reverse (s0 :: srest) n.toNat).symm
    rw [hS]
    have hsorted : ((st.procs.filter (fun p =>
        (((s0 :: srest).drop ((s0 :: srest).length - n.toNat)).map
          (fun r => r.id)).contains p.snapshot_id))).Pairwise
            (fun a b => a.snapshot_id ≤ b.snapshot_id) :=
      hprocs.sublist (List.filter_sublist _)
    rw [sortAscBySnapshotId_eq_self _ hsorted]
    apply List.map_congr_left
    intro r hr
    apply congrArg (rehydrateRow r)
    unfold procsFor
    rw [List.filter_filter]
    apply congrArg (List.map toRProc)
    apply List.filter_congr
    intro p _
    cases hb : p.snapshot_id == r.id with
    | false => simp [hb]
    | true =>
      simp only [hb, Bool.and_true, Bool.true_and]
      have hpr : p.snapshot_id = r.id := beq_iff_eq.mp hb
      have hmem : r.id ∈ ((s0 :: srest).drop ((s0 :: srest).length - n.toNat)).map
          (fun r => r.id) := List.mem_map_of_mem _ hr
      rw [hpr]
      exact List.elem_eq_true_of_mem hmem

/-- A successfully built snapshot row carries the id it was given
(`lastrowid` is the AUTOINCREMENT value of the INSERT). -/
theorem mkSnapRow_ok_id (id : ℕ) (s : MSnap) (row : SnapRow)
    (h : mkSnapRow id s = Except.ok row) : row.id = id := by
  unfold mkSnapRow at h
  split at h
  · cases h
    rfl
  · cases h

/-- A successfully built process row carries the snapshot id it was
given. -/
theorem mkProcRow_ok_sid (id sid : ℕ) (p : MProc) (row : ProcRow)
    (h : mkProcRow id sid p = Except.ok row) : row.snapshot_id = sid := by
  unfold mkProcRow at h
  split at h
  · cases h
  · cases h
    rfl

/-- Every row written by a successful process loop points at the saved
snapshot. -/
theorem insertProcs_ok_sid (oracle : ℕ → Bool) (sid : ℕ) :
    ∀ (ps : List MProc) (next_id k : ℕ) (rows : List ProcRow),
      insertProcs oracle sid next_id k ps = Except.ok rows →
      ∀ p ∈ rows, p.snapshot_id = sid := by
  intro ps
  induction ps with
  | nil =>
    intro next_id k rows h
    simp only [insertProcs] at h
    cases h
    intro p hp
    cases hp
  | cons q rest ih =>
    intro next_id k rows h
    simp only [insertProcs] at h
    cases hm : mkProcRow next_id sid q with
    | error e => rw [hm] at h; cases h
    | ok row =>
      rw [hm] at h
      dsimp only at h
      by_cases ho : oracle k
      · rw [if_pos ho] at h; cases h
      · rw [if_neg ho] at h
        cases hr : insertProcs oracle sid (next_id + 1) (k + 1) rest with
        | error e => rw [hr] at h; cases h
        | ok rows0 =>
          rw [hr] at h
          cases h
          intro p hp
          rcases List.mem_cons.mp hp with rfl | hp
          · exact mkProcRow_ok_sid next_id sid q p hm
          · exact ih _ _ _ hr p hp

/-- A fresh database satisfies the single-writer store invariant. -/
theorem storeInv_init : StoreInv init_db := by
  refine ⟨List.Pairwise.nil, ?_, List.Pairwise.nil, ?_⟩ <;> intro r hr <;> cases hr

/-- `save_snapshot` preserves the single-writer store invariant: the
committed snapshot row gets a fresh, larger id and its process rows all
point at it. -/
theorem storeInv_save (oracle : ℕ → Bool) (st : Store) (snap : MSnap)
    (h : StoreInv st) : StoreInv (save_snapshot oracle st snap).1 := by
  cases hA : saveAttempt oracle st snap with
  | error e => simpa [save_snapshot, hA] using h
  | ok pair =>
    obtain ⟨row, procRows⟩ := pair
    have hok := saveAttempt_ok oracle st snap row procRows hA
    have hid : row.id = st.next_snap_id := mkSnapRow_ok_id _ _ _ hok.1
    have hsid : ∀ p ∈ procRows, p.snapshot_id = st.next_snap_id :=
      insertProcs_ok_sid oracle st.next_snap_id snap.top_processes
        st.next_proc_id 1 procRows hok.2
    obtain ⟨h1, h2, h3, h4⟩ := h
    simp only [save_snapshot, hA]
    refine ⟨?_, ?_, ?_, ?_⟩
    · rw [List.pairwise_append]
      refine ⟨h1, List.pairwise_singleton _ _, ?_⟩
      intro a ha b hb
      rcases List.mem_singleton.mp hb with rfl
      rw [hid]
      exact h2 a ha
    · intro r hr
      dsimp only
      rcases List.mem_append.mp hr with hr | hr
      · have := h2 r hr
        omega
      · rcases List.mem_singleton.mp hr with rfl
        omega
    · rw [List.pairwise_append]
      refine ⟨h3, ?_, ?_⟩
      · apply List.pairwise_of_forall_mem_list
        intro a ha b hb
        rw [hsid a ha, hsid b hb]
      · intro a ha b hb
        have hb2 := hsid b hb
        have ha2 := h4 a ha
        omega
    · intro p hp
      dsimp only
      rcases List.mem_append.mp hp with hp | hp
      · have := h4 p hp
        omega
      · have := hsid p hp
        omega

/-- C3 witness: the concrete three-snapshot store satisfies the
single-writer invariant and requesting its last 2 snapshots returns the
length-2 suffix of the table, rehydrated. -/
theorem get_snapshots_last_n_ordered_witness :
    StoreInv store3
    ∧ (1 : ℤ) ≤ 2
    ∧ get_snapshots store3 2
        = (store3.snaps.drop (store3.snaps.length - (2 : ℤ).toNat)).map
            (fun r => rehydrateRow r
              ((store3.procs.filter (fun p => p.snapshot_id == r.id)).map toRProc)) :=
  ⟨by decide, by decide,
    (get_snapshots_last_n_ordered store3 2 (by decide) (by decide)).1⟩
